import Mathlib

/-!
Verification development for the content-publish pipeline of the
`django-on-aws` repository (`app/main/models.py`).

The embedding is shallow: Django model instances become Lean structures,
the database becomes an explicit list of rows, and the effectful save /
notify pipeline becomes a pure function returning an `Except` result
together with a list of observable events (row writes, notifier
invocations, bulk-send API calls, log records).  Strings are restricted
to ASCII, over which `django.utils.text.slugify`'s NFKD normalisation is
the identity.
-/

namespace DjangoOnAws

/-! ### ASCII character helpers (CPython `str.lower` / `str.title` on ASCII) -/

/-- ASCII uppercase letter test (`A`–`Z`). -/
def isAsciiUpper (c : Char) : Bool := 65 ≤ c.toNat && c.toNat ≤ 90

/-- ASCII lowercase letter test (`a`–`z`). -/
def isAsciiLower (c : Char) : Bool := 97 ≤ c.toNat && c.toNat ≤ 122

/-- ASCII digit test (`0`–`9`). -/
def isAsciiDigit (c : Char) : Bool := 48 ≤ c.toNat && c.toNat ≤ 57

/-- ASCII letter test. -/
def isAsciiAlpha (c : Char) : Bool := isAsciiUpper c || isAsciiLower c

/-- Python `str.lower` on an ASCII character. -/
def lowerChar (c : Char) : Char :=
  if isAsciiUpper c then Char.ofNat (c.toNat + 32) else c

/-- Python `str.upper` on an ASCII character. -/
def upperChar (c : Char) : Char :=
  if isAsciiLower c then Char.ofNat (c.toNat - 32) else c

/-! ### `django.utils.text.slugify` (allow_unicode=False), on ASCII input

The CPython source is:
```
value = unicodedata.normalize("NFKD", value).encode("ascii", "ignore").decode("ascii")
value = re.sub(r"[^\w\s-]", "", value.lower())
return re.sub(r"[-\s]+", "-", value).strip("-_")
```
`\w` on the post-encode ASCII text is `[a-zA-Z0-9_]`, `\s` is
`[ \t\n\r\x0b\x0c]`.  NFKD followed by the ASCII encode is modelled as
dropping every non-ASCII character (exact for ASCII input, which is the
domain of this development). -/

/-- Regex `\w` over ASCII text: letters, digits and underscore. -/
def isWordCh (c : Char) : Bool := isAsciiAlpha c || isAsciiDigit c || c = '_'

/-- Regex `\s` over ASCII text. -/
def isSpaceCh (c : Char) : Bool :=
  c = ' ' || c = '\t' || c = '\n' || c = '\r' || c = '\x0b' || c = '\x0c'

/-- Characters kept by `re.sub(r"[^\w\s-]", "", ·)`. -/
def keepCh (c : Char) : Bool := isWordCh c || isSpaceCh c || c = '-'

/-- Characters matched by the class `[-\s]` of the collapsing regex. -/
def isSepCh (c : Char) : Bool := c = '-' || isSpaceCh c

/-- Characters stripped from both ends by `.strip("-_")`. -/
def isStripCh (c : Char) : Bool := c = '-' || c = '_'

/-- Replace every maximal run of `[-\s]` characters by a single hyphen
(`re.sub(r"[-\s]+", "-", ·)`). -/
def collapseSeps : List Char → List Char
  | [] => []
  | [c] => if isSepCh c then ['-'] else [c]
  | c :: d :: rest =>
    if isSepCh c then
      if isSepCh d then collapseSeps (d :: rest)
      else '-' :: collapseSeps (d :: rest)
    else c :: collapseSeps (d :: rest)

/-- Python `str.strip("-_")`: drop strip-characters from both ends. -/
def stripEnds (l : List Char) : List Char :=
  ((l.dropWhile isStripCh).reverse.dropWhile isStripCh).reverse

/-- The `django.utils.text.slugify` pipeline on a character list. -/
def slugifyList (l : List Char) : List Char :=
  stripEnds (collapseSeps (((l.filter (fun c => c.toNat < 128)).map lowerChar).filter keepCh))

/-- `django.utils.text.slugify` (allow_unicode=False) on ASCII strings. -/
def slugify (s : String) : String := String.mk (slugifyList s.data)

/-! ### `pathlib.Path(...).with_suffix("")`

CPython computes the suffix of a path from its final component `name` as
`name[i:]` where `i = name.rfind(".")`, provided `0 < i < len(name) - 1`;
`with_suffix("")` removes exactly that suffix.  On the reversed final
component the last dot of `name` is the first dot, at reversed index
`k = len(name) - 1 - i`, and the side conditions become
`0 < k < len(name) - 1`. -/

/-- String conversion of `Path(s).with_suffix("")` on a slash-separated
path: drop the last dot-suffix of the final component, when present. -/
def stripLastExtList (l : List Char) : List Char :=
  let rev := l.reverse.takeWhile (fun c => c ≠ '/')
  let k := rev.findIdx (fun c => c = '.')
  if 0 < k ∧ k + 1 < rev.length then l.take (l.length - (k + 1)) else l

/-- String version of `stripLastExtList`. -/
def stripLastExt (s : String) : String := String.mk (stripLastExtList s.data)

/-- Extension removed by `stripLastExt` (so `stripLastExt s ++ extOf s = s`). -/
def extOf (s : String) : String := String.mk (s.data.drop (stripLastExtList s.data).length)

/-- Python `str.title` on ASCII text: uppercase every letter that follows a
non-letter, lowercase the other letters. -/
def pyTitleGo : Bool → List Char → List Char
  | _, [] => []
  | prevAlpha, c :: rest =>
    (if isAsciiAlpha c then (if prevAlpha then lowerChar c else upperChar c) else c)
      :: pyTitleGo (isAsciiAlpha c) rest

/-- Python `str.title` on an ASCII string (used for `user.username.title()`). -/
def pyTitle (s : String) : String := String.mk (pyTitleGo false s.data)

/-! ### Data model

`app/main/models.py` declares two Django models.  A model instance is a
structure; the database is a `Db` holding one list of rows per table.
`content` and `date_published` (framework-defaulted fields never touched
by the modelled operations) are omitted. -/

/-- Fixed suffix distinguishing the thumbnail from the primary image
(`THUMBNAIL_SUFFIX = "_resized"` in `models.py`). -/
def THUMBNAIL_SUFFIX : String := "_resized"

/-- Modelled from the spec: `BaseModelMixin.resize_image` lives in
`app/main/mixins.py`, which is not among the provided sources.  Per the
spec, `save()` "derives a resized thumbnail from the main image (fixed
suffix naming convention distinguishing it from the primary image)", so
the returned file keeps the original name with the suffix inserted
before the extension; `Category.save` calls it with the default empty
suffix, which leaves the name unchanged. -/
def resizedName (name : String) (suffix : String) : String :=
  stripLastExt name ++ suffix ++ extOf name

/-- Modelled from the spec: the resize operation itself "fails if the
image cannot be decoded/resized"; decodability of the stored blob is
carried as an explicit boolean alongside the file name. -/
def resize_image (name : String) (decodable : Bool) (suffix : String) :
    Except String String :=
  if decodable then Except.ok (resizedName name suffix)
  else Except.error "cannot identify image file"

/-- Registered user, as read from the user directory
(`django.contrib.auth.models.User`). -/
structure AppUser where
  username : String
  email : String
deriving DecidableEq

/-- Persisted `Category` row. -/
structure CategoryRow where
  id : Nat
  category_name : String
  summary : String
  image : String
  category_slug : String
deriving DecidableEq

/-- In-memory `Category` instance (`id = none` until first save). -/
structure CategoryObj where
  id : Option Nat
  category_name : String
  summary : String
  image : String
  image_decodable : Bool
  category_slug : String
deriving DecidableEq

/-- Persisted `Item` row. -/
structure ItemRow where
  id : Nat
  item_name : String
  summary : String
  image : String
  image_thumbnail : String
  item_slug : String
  category : Nat
  views : Int
deriving DecidableEq

/-- In-memory `Item` instance (`id = none` until first save); `category`
is the foreign-key id (`default=1`). -/
structure ItemObj where
  id : Option Nat
  item_name : String
  summary : String
  image : String
  image_decodable : Bool
  image_thumbnail : String
  item_slug : String
  category : Nat
  views : Int
deriving DecidableEq

/-- The relational store: one table per model. -/
structure Db where
  categories : List CategoryRow
  items : List ItemRow
deriving DecidableEq

/-- Row written for an `Item` instance with primary key `i`. -/
def itemRowOf (i : Nat) (it : ItemObj) : ItemRow :=
  { id := i, item_name := it.item_name, summary := it.summary,
    image := it.image, image_thumbnail := it.image_thumbnail,
    item_slug := it.item_slug, category := it.category, views := it.views }

/-- Row written for a saved `Item` instance (primary key already assigned). -/
def rowOfSaved (it : ItemObj) : ItemRow := itemRowOf (it.id.getD 0) it

/-- Row written for a `Category` instance with primary key `i`. -/
def categoryRowOf (i : Nat) (c : CategoryObj) : CategoryRow :=
  { id := i, category_name := c.category_name, summary := c.summary,
    image := c.image, category_slug := c.category_slug }

/-- Fresh auto-assigned primary key for an insert. -/
def freshItemId (rows : List ItemRow) : Nat :=
  rows.foldr (fun r m => max r.id m) 0 + 1

/-- Fresh auto-assigned primary key for a `Category` insert. -/
def freshCategoryId (rows : List CategoryRow) : Nat :=
  rows.foldr (fun r m => max r.id m) 0 + 1

/-! ### The store layer (`super().save()`)

The backing store enforces the declared column constraints: `max_length`
on the character columns (`item_name`/`category_name` 200, `summary`
200, the slug columns 50) and `unique=True` on name and slug.  A save
with a primary key updates the row with that key, otherwise it inserts
with a fresh key. -/

/-- Declared length constraints of the `Item` table. -/
def itemLenOk (it : ItemObj) : Bool :=
  it.item_name.length ≤ 200 && it.summary.length ≤ 200 && it.item_slug.length ≤ 50

/-- Uniqueness of `item_name` and `item_slug` against all other rows. -/
def itemUniqueOk (rows : List ItemRow) (selfId : Option Nat) (it : ItemObj) : Bool :=
  rows.all (fun r =>
    some r.id == selfId || (r.item_name ≠ it.item_name && r.item_slug ≠ it.item_slug))

/-- Store write for an `Item` (`super().save()` in `Item.save`). -/
def superSaveItem (db : Db) (it : ItemObj) : Except String (Db × ItemObj) :=
  if ¬ itemLenOk it then Except.error "value too long for type character varying"
  else if ¬ itemUniqueOk db.items it.id it then Except.error "UNIQUE constraint failed"
  else match it.id with
    | some i =>
      Except.ok ({ db with items := db.items.filter (fun r => r.id ≠ i) ++ [itemRowOf i it] }, it)
    | none =>
      let i := freshItemId db.items
      Except.ok ({ db with items := db.items ++ [itemRowOf i it] }, { it with id := some i })

/-- Declared length constraints of the `Category` table. -/
def categoryLenOk (c : CategoryObj) : Bool :=
  c.category_name.length ≤ 200 && c.category_slug.length ≤ 50

/-- Uniqueness of `category_name` and `category_slug` against other rows. -/
def categoryUniqueOk (rows : List CategoryRow) (selfId : Option Nat) (c : CategoryObj) : Bool :=
  rows.all (fun r =>
    some r.id == selfId ||
      (r.category_name ≠ c.category_name && r.category_slug ≠ c.category_slug))

/-- Store write for a `Category` (`super().save()` in `Category.save`). -/
def superSaveCategory (db : Db) (c : CategoryObj) : Except String (Db × CategoryObj) :=
  if ¬ categoryLenOk c then Except.error "value too long for type character varying"
  else if ¬ categoryUniqueOk db.categories c.id c then
    Except.error "UNIQUE constraint failed"
  else match c.id with
    | some i =>
      Except.ok
        ({ db with categories := db.categories.filter (fun r => r.id ≠ i) ++ [categoryRowOf i c] }, c)
    | none =>
      let i := freshCategoryId db.categories
      Except.ok
        ({ db with categories := db.categories ++ [categoryRowOf i c] },
          { c with id := some i })

/-! ### Notification pipeline (`Item.notify_registered_users`) -/

/-- Environment of a save: the registered users, the
`SES_IDENTITY_ARN` configuration value (from `app/config.py`, falsy when
empty) and the behaviour of the external bulk-send call, which either
returns a response or raises. -/
structure Env where
  users : List AppUser
  sesIdentityArn : String
  sesSend : Except String String

/-- Django media URL root for files uploaded to
`settings.UPLOADS_FOLDER_PATH`: `FieldFile.url` is the storage URL of the
stored name. -/
def mediaUrlBase : String := "/media/uploads/"

/-- Django `FieldFile.url`: raises `ValueError` when no file is
associated with the field, otherwise returns the storage URL. -/
def fieldUrl (name : String) : Except String String :=
  if name = "" then Except.error "The attribute has no file associated with it"
  else Except.ok (mediaUrlBase ++ name)

/-- Template parameters serialised into `ReplacementTemplateData`
(`json.dumps` is modelled as the structured record itself). -/
structure TemplateData where
  base_url : String
  item_name : String
  item_url_path : String
  recette_image_url_path : String
  username : String
  email : String
deriving DecidableEq

/-- One entry of the `Destinations` list of the bulk-send request. -/
structure Destination where
  toAddresses : List String
  replacementTemplateData : TemplateData
deriving DecidableEq

/-- Category lookup performed by the foreign-key access
`self.category_name`; raises `Category.DoesNotExist` when the referenced
row is absent. -/
def findCategory (db : Db) (cid : Nat) : Except String CategoryRow :=
  match db.categories.find? (fun c => c.id = cid) with
  | some c => Except.ok c
  | none => Except.error "Category matching query does not exist"

/-- Destination dictionary built for one registered user inside the list
comprehension of `notify_registered_users`. -/
def buildDestination (db : Db) (it : ItemObj) (u : AppUser) : Except String Destination :=
  match findCategory db it.category with
  | Except.error e => Except.error e
  | Except.ok cat =>
    match fieldUrl it.image_thumbnail with
    | Except.error e => Except.error e
    | Except.ok thumbUrl =>
      Except.ok
        { toAddresses := [u.email],
          replacementTemplateData :=
            { base_url := "https://tari.kitchen",
              item_name := it.item_name,
              item_url_path := "/items/" ++ cat.category_slug ++ "/" ++ it.item_slug,
              recette_image_url_path := stripLastExt thumbUrl ++ THUMBNAIL_SUFFIX ++ ".jpg",
              username := pyTitle u.username,
              email := u.email } }

/-- Effectful list traversal: the first raised exception propagates. -/
def mapExcept (f : α → Except ε β) : List α → Except ε (List β)
  | [] => Except.ok []
  | a :: as =>
    match f a with
    | Except.error e => Except.error e
    | Except.ok b =>
      match mapExcept f as with
      | Except.error e => Except.error e
      | Except.ok bs => Except.ok (b :: bs)

/-- Severity of a log record. -/
inductive LogLevel | info | error
deriving DecidableEq

/-- Observable events of a save: the store write, the invocation of the
notifier, the bulk-send API call, and log records. -/
inductive Ev
  | persistWrite (row : ItemRow)
  | notifyCall
  | sesSend (dests : List Destination)
  | log (lvl : LogLevel) (msg : String)
deriving DecidableEq

/-- Event filter for notifier invocations. -/
def isNotifyCall : Ev → Bool
  | Ev.notifyCall => true
  | _ => false

/-- Event filter for bulk-send API calls. -/
def isSesSend : Ev → Bool
  | Ev.sesSend _ => true
  | _ => false

/-- Log message emitted when `SES_IDENTITY_ARN` is not configured. -/
def arnUnsetMsg : String :=
  "SES_IDENTITY_ARN not set, therefore email notifications are disabled."

/-- Error-level log message emitted when the bulk-send call raises
(`repr` of the exception is modelled as its carried message). -/
def sesFailMsg (e : String) : String :=
  "Failed to send SES email notification: " ++ e

/-- Info-level log message emitted when the bulk-send call succeeds. -/
def sesOkMsg (resp : String) : String :=
  "SES notification was successful. response: " ++ resp

/-- Embedding of `Item.notify_registered_users`: build the full
destination list (one entry per registered user), then return early when
`SES_IDENTITY_ARN` is falsy, otherwise issue the single bulk-send call
inside `try/except`.  The returned value pairs the outcome (an
uncaught exception propagates as `Except.error`) with the emitted
events; every run starts with `Ev.notifyCall`. -/
def notify_registered_users (env : Env) (db : Db) (it : ItemObj) :
    Except String Unit × List Ev :=
  match mapExcept (buildDestination db it) env.users with
  | Except.error e => (Except.error e, [Ev.notifyCall])
  | Except.ok dests =>
    if env.sesIdentityArn = "" then
      (Except.ok (), [Ev.notifyCall, Ev.log LogLevel.info arnUnsetMsg])
    else
      match env.sesSend with
      | Except.ok resp =>
        (Except.ok (), [Ev.notifyCall, Ev.sesSend dests, Ev.log LogLevel.info (sesOkMsg resp)])
      | Except.error e =>
        (Except.ok (), [Ev.notifyCall, Ev.sesSend dests, Ev.log LogLevel.error (sesFailMsg e)])

/-! ### Save pipelines -/

/-- Derivation-plus-persistence phase of `Item.save`: recompute the
thumbnail and the slug, then write through the store.  This is
everything of `Item.save` before the notifier call. -/
def persistPhase (db : Db) (it : ItemObj) : Except String (Db × ItemObj) :=
  match resize_image it.image it.image_decodable THUMBNAIL_SUFFIX with
  | Except.error e => Except.error e
  | Except.ok thumb =>
    superSaveItem db { it with image_thumbnail := thumb, item_slug := slugify it.item_name }

/-- Embedding of `Item.save`: derive, persist, then notify.  The event
list records the store write followed by the notifier's events; a failed
persistence produces no events at all. -/
def itemSave (env : Env) (db : Db) (it : ItemObj) :
    Except String (Db × ItemObj) × List Ev :=
  match persistPhase db it with
  | Except.error e => (Except.error e, [])
  | Except.ok (db1, it2) =>
    match notify_registered_users env db1 it2 with
    | (Except.error e, evs) => (Except.error e, Ev.persistWrite (rowOfSaved it2) :: evs)
    | (Except.ok _, evs) => (Except.ok (db1, it2), Ev.persistWrite (rowOfSaved it2) :: evs)

/-- Embedding of `Item.increment_views`: `self.views += 1; self.save()`. -/
def increment_views (env : Env) (db : Db) (it : ItemObj) :
    Except String (Db × ItemObj) × List Ev :=
  itemSave env db { it with views := it.views + 1 }

/-- Embedding of `Category.save`: resize the image in place (empty
suffix), recompute the slug, then write through the store. -/
def categorySave (db : Db) (c : CategoryObj) : Except String (Db × CategoryObj) :=
  match resize_image c.image c.image_decodable "" with
  | Except.error e => Except.error e
  | Except.ok img =>
    superSaveCategory db { c with image := img, category_slug := slugify c.category_name }

/-- Deletion of a `Category` row, following the declared
`on_delete=models.SET_DEFAULT, default=1` of `Item.category_name`: the
referencing items survive with their category reference reset to the
default category id 1. -/
def deleteCategory (db : Db) (cid : Nat) : Db :=
  { categories := db.categories.filter (fun c => c.id ≠ cid),
    items := db.items.map (fun r => if r.category = cid then { r with category := 1 } else r) }

/-- Decidable precondition under which the whole `Item.save` pipeline
succeeds for any environment: the image decodes, the store constraints
hold for the derived instance, and the referenced category exists. -/
def saveReady (db : Db) (it : ItemObj) : Bool :=
  let it1 := { it with
    image_thumbnail := resizedName it.image THUMBNAIL_SUFFIX
    item_slug := slugify it.item_name }
  it.image_decodable && itemLenOk it1 && itemUniqueOk db.items it.id it1 &&
    db.categories.any (fun c => c.id = it.category)

/-- Item instance with the fields that `Item.save` re-derives (slug and
thumbnail) recomputed from the current name and image; this is the
instance handed to the store when the image decodes. -/
def derivedItem (it : ItemObj) : ItemObj :=
  { it with
    image_thumbnail := resizedName it.image THUMBNAIL_SUFFIX
    item_slug := slugify it.item_name }

/-! ### Slug shape -/

/-- Characters that may occur in a slug: lowercase ASCII letters, digits,
underscore, hyphen. -/
def slugBodyChar (c : Char) : Bool :=
  isAsciiLower c || isAsciiDigit c || c = '_' || c = '-'

/-- No two adjacent separator characters. -/
def noAdjSeps : List Char → Bool
  | c :: d :: rest => !(isSepCh c && isSepCh d) && noAdjSeps (d :: rest)
  | _ => true

/-- A string is slug-shaped when every character is a slug character,
no two hyphens are adjacent, and it neither starts nor ends with a
strippable character. -/
def isSlugShaped (l : List Char) : Bool :=
  l.all slugBodyChar && noAdjSeps l &&
    (match l.head? with | none => true | some c => !isStripCh c) &&
    (match l.getLast? with | none => true | some c => !isStripCh c)

/-! ### Concrete fixtures used by witnesses and counterexamples -/

/-- One registered user. -/
def user0 : AppUser := { username := "alice", email := "alice@example.com" }

/-- Environment with one user, a configured identity and a succeeding
bulk-send call. -/
def env0 : Env :=
  { users := [user0], sesIdentityArn := "arn:aws:ses:0", sesSend := Except.ok "OK" }

/-- Environment with one user, a configured identity and a bulk-send
call that raises. -/
def envErr : Env :=
  { users := [user0], sesIdentityArn := "arn:aws:ses:0", sesSend := Except.error "Throttling" }

/-- Environment with one user and no configured identity. -/
def envNoArn : Env := { users := [user0], sesIdentityArn := "", sesSend := Except.ok "OK" }

/-- Store holding the default category (id 1) and no items. -/
def db0 : Db :=
  { categories :=
      [{ id := 1, category_name := "Soups", summary := "hot", image := "cat.png",
         category_slug := "soups" }],
    items := [] }

/-- Unsaved item referencing the default category. -/
def it0 : ItemObj :=
  { id := none, item_name := "Tomato Soup", summary := "red", image := "photo.png",
    image_decodable := true, image_thumbnail := "", item_slug := "", category := 1,
    views := 0 }

/-- Destination actually handed to the bulk-send call when `it0` is
saved under `db0`/`env0`. -/
def dest0 : Destination :=
  { toAddresses := ["alice@example.com"],
    replacementTemplateData :=
      { base_url := "https://tari.kitchen",
        item_name := "Tomato Soup",
        item_url_path := "/items/soups/tomato-soup",
        recette_image_url_path := "/media/uploads/photo_resized_resized.jpg",
        username := "Alice",
        email := "alice@example.com" } }

/-- Name of 60 `a` characters: fits the 200-character name column, but
its slug overflows the 50-character slug column. -/
def longName : String := String.mk (List.replicate 60 'a')

/-- Unsaved item carrying `longName`. -/
def itLong : ItemObj := { it0 with item_name := longName }

/-- Unsaved category carrying `longName`. -/
def catLong : CategoryObj :=
  { id := none, category_name := longName, summary := "s", image := "cat.png",
    image_decodable := true, category_slug := "" }

/-- Empty store. -/
def dbEmpty : Db := { categories := [], items := [] }

/-- Unsaved category named "Tomato Soup" with a caller-assigned slug. -/
def catTS : CategoryObj :=
  { id := none, category_name := "Tomato Soup", summary := "x", image := "c.png",
    image_decodable := true, category_slug := "junk" }

/-- Store produced by `categorySave db0 catTS`. -/
def dbC : Db :=
  { categories :=
      [{ id := 1, category_name := "Soups", summary := "hot", image := "cat.png",
         category_slug := "soups" },
       { id := 2, category_name := "Tomato Soup", summary := "x", image := "c.png",
         category_slug := "tomato-soup" }],
    items := [] }

/-- Instance produced by `categorySave db0 catTS`. -/
def catC : CategoryObj :=
  { id := some 2, category_name := "Tomato Soup", summary := "x", image := "c.png",
    image_decodable := true, category_slug := "tomato-soup" }

/-- Row produced by saving `it0` under `db0`. -/
def rowI : ItemRow :=
  { id := 1, item_name := "Tomato Soup", summary := "red", image := "photo.png",
    image_thumbnail := "photo_resized.png", item_slug := "tomato-soup", category := 1,
    views := 0 }

/-- Store produced by saving `it0` under `db0`. -/
def dbI : Db := { categories := db0.categories, items := [rowI] }

/-- Instance produced by saving `it0` under `db0`. -/
def itI : ItemObj :=
  { id := some 1, item_name := "Tomato Soup", summary := "red", image := "photo.png",
    image_decodable := true, image_thumbnail := "photo_resized.png",
    item_slug := "tomato-soup", category := 1, views := 0 }

/-- Row referencing category 2, used for the deletion claim. -/
def rowD : ItemRow :=
  { id := 7, item_name := "Pho", summary := "soup", image := "pho.png",
    image_thumbnail := "pho_resized.png", item_slug := "pho", category := 2, views := 3 }

/-- Store with two categories and one item referencing category 2. -/
def dbDel : Db :=
  { categories :=
      [{ id := 1, category_name := "Default", summary := "d", image := "d.png",
         category_slug := "default" },
       { id := 2, category_name := "Asian", summary := "a", image := "a.png",
         category_slug := "asian" }],
    items := [rowD] }

/-! ## Character-level lemmas -/

theorem char_eq_iff_toNat {c d : Char} : c = d ↔ c.toNat = d.toNat := by
  constructor
  · rintro rfl; rfl
  · intro h
    exact Char.ext (UInt32.eq_of_val_eq (Fin.ext h))

theorem toNat_ofNat_of_lt {n : Nat} (h : n < 55296) : (Char.ofNat n).toNat = n := by
  have hv : Nat.isValidChar n := Or.inl h
  unfold Char.ofNat
  rw [dif_pos hv]
  rfl

theorem isAsciiUpper_iff {c : Char} :
    isAsciiUpper c = true ↔ 65 ≤ c.toNat ∧ c.toNat ≤ 90 := by
  simp [isAsciiUpper]

theorem isAsciiLower_iff {c : Char} :
    isAsciiLower c = true ↔ 97 ≤ c.toNat ∧ c.toNat ≤ 122 := by
  simp [isAsciiLower]

theorem isAsciiDigit_iff {c : Char} :
    isAsciiDigit c = true ↔ 48 ≤ c.toNat ∧ c.toNat ≤ 57 := by
  simp [isAsciiDigit]

theorem isSpaceCh_iff {c : Char} :
    isSpaceCh c = true ↔
      c.toNat = 32 ∨ c.toNat = 9 ∨ c.toNat = 10 ∨ c.toNat = 13 ∨ c.toNat = 11 ∨
        c.toNat = 12 := by
  simp [isSpaceCh, char_eq_iff_toNat]
  omega

theorem isWordCh_iff {c : Char} :
    isWordCh c = true ↔
      (65 ≤ c.toNat ∧ c.toNat ≤ 90) ∨ (97 ≤ c.toNat ∧ c.toNat ≤ 122) ∨
        (48 ≤ c.toNat ∧ c.toNat ≤ 57) ∨ c.toNat = 95 := by
  simp [isWordCh, isAsciiAlpha, isAsciiUpper_iff, isAsciiLower_iff, isAsciiDigit_iff,
    char_eq_iff_toNat, or_assoc]

theorem keepCh_iff {c : Char} :
    keepCh c = true ↔
      (65 ≤ c.toNat ∧ c.toNat ≤ 90) ∨ (97 ≤ c.toNat ∧ c.toNat ≤ 122) ∨
        (48 ≤ c.toNat ∧ c.toNat ≤ 57) ∨ c.toNat = 95 ∨
        (c.toNat = 32 ∨ c.toNat = 9 ∨ c.toNat = 10 ∨ c.toNat = 13 ∨ c.toNat = 11 ∨
          c.toNat = 12) ∨ c.toNat = 45 := by
  simp [keepCh, isWordCh_iff, isSpaceCh_iff, char_eq_iff_toNat, or_assoc]

theorem isSepCh_iff {c : Char} :
    isSepCh c = true ↔
      c.toNat = 45 ∨ c.toNat = 32 ∨ c.toNat = 9 ∨ c.toNat = 10 ∨ c.toNat = 13 ∨
        c.toNat = 11 ∨ c.toNat = 12 := by
  simp [isSepCh, isSpaceCh_iff, char_eq_iff_toNat, or_assoc]

theorem isStripCh_iff {c : Char} :
    isStripCh c = true ↔ c.toNat = 45 ∨ c.toNat = 95 := by
  simp [isStripCh, char_eq_iff_toNat]

theorem slugBodyChar_iff {c : Char} :
    slugBodyChar c = true ↔
      (97 ≤ c.toNat ∧ c.toNat ≤ 122) ∨ (48 ≤ c.toNat ∧ c.toNat ≤ 57) ∨
        c.toNat = 95 ∨ c.toNat = 45 := by
  simp [slugBodyChar, isAsciiLower_iff, isAsciiDigit_iff, char_eq_iff_toNat, or_assoc]

theorem lowerChar_toNat {c : Char} :
    (lowerChar c).toNat =
      if 65 ≤ c.toNat ∧ c.toNat ≤ 90 then c.toNat + 32 else c.toNat := by
  by_cases h : isAsciiUpper c = true
  · have hb := isAsciiUpper_iff.mp h
    rw [lowerChar, if_pos h, if_pos hb, toNat_ofNat_of_lt (by omega)]
  · have hb : ¬ (65 ≤ c.toNat ∧ c.toNat ≤ 90) := fun hc => h (isAsciiUpper_iff.mpr hc)
    rw [lowerChar, if_neg h, if_neg hb]

theorem lowerChar_not_upper (c : Char) : isAsciiUpper (lowerChar c) = false := by
  rw [Bool.eq_false_iff]
  intro h
  have h1 := isAsciiUpper_iff.mp h
  rw [lowerChar_toNat] at h1
  by_cases h2 : 65 ≤ c.toNat ∧ c.toNat ≤ 90
  · rw [if_pos h2] at h1; omega
  · rw [if_neg h2] at h1; omega

theorem lowerChar_eq_self {c : Char} (h : isAsciiUpper c = false) : lowerChar c = c := by
  rw [lowerChar, if_neg (by rw [h]; exact Bool.false_ne_true)]

theorem slugBody_not_upper {c : Char} (h : slugBodyChar c = true) :
    isAsciiUpper c = false := by
  rw [slugBodyChar_iff] at h
  rw [Bool.eq_false_iff]
  intro hu
  rw [isAsciiUpper_iff] at hu
  omega

theorem slugBody_lower_self {c : Char} (h : slugBodyChar c = true) : lowerChar c = c :=
  lowerChar_eq_self (slugBody_not_upper h)

theorem slugBody_keep {c : Char} (h : slugBodyChar c = true) : keepCh c = true := by
  rw [slugBodyChar_iff] at h
  rw [keepCh_iff]
  omega

theorem slugBody_ascii {c : Char} (h : slugBodyChar c = true) : c.toNat < 128 := by
  rw [slugBodyChar_iff] at h
  omega

theorem slugBody_sep_eq {c : Char} (h : slugBodyChar c = true) (hs : isSepCh c = true) :
    c = '-' := by
  rw [slugBodyChar_iff] at h
  rw [isSepCh_iff] at hs
  rw [char_eq_iff_toNat]
  show c.toNat = 45
  omega

theorem slugBody_of_keep {c : Char} (hk : keepCh c = true) (hs : isSepCh c = false)
    (hu : isAsciiUpper c = false) : slugBodyChar c = true := by
  rw [keepCh_iff] at hk
  rw [slugBodyChar_iff]
  have hs' : ¬ isSepCh c = true := by rw [hs]; exact Bool.false_ne_true
  rw [isSepCh_iff] at hs'
  have hu' : ¬ isAsciiUpper c = true := by rw [hu]; exact Bool.false_ne_true
  rw [isAsciiUpper_iff] at hu'
  omega

/-! ## Lemmas about the slugify pipeline -/

theorem collapseSeps_eq_self :
    ∀ l : List Char, (∀ c ∈ l, slugBodyChar c = true) → noAdjSeps l = true →
      collapseSeps l = l := by
  intro l
  induction l with
  | nil => intro _ _; rfl
  | cons c tail ih =>
    intro hall hna
    cases tail with
    | nil =>
      by_cases hs : isSepCh c = true
      · have hc : c = '-' := slugBody_sep_eq (hall c (by simp)) hs
        subst hc
        rfl
      · rw [collapseSeps, if_neg hs]
    | cons d rest =>
      have hna' : noAdjSeps (d :: rest) = true := by
        rw [noAdjSeps, Bool.and_eq_true] at hna
        exact hna.2
      have hrec : collapseSeps (d :: rest) = d :: rest :=
        ih (fun x hx => hall x (List.mem_cons_of_mem c hx)) hna'
      by_cases hs : isSepCh c = true
      · have hc : c = '-' := slugBody_sep_eq (hall c (by simp)) hs
        have hd : isSepCh d = false := by
          rw [noAdjSeps, Bool.and_eq_true] at hna
          have := hna.1
          rw [Bool.not_eq_true', Bool.and_eq_false_iff] at this
          rcases this with h | h
          · rw [h] at hs; exact absurd hs (by simp)
          · exact h
        rw [collapseSeps, if_pos hs, if_neg (by rw [hd]; exact Bool.false_ne_true), hrec, hc]
      · rw [collapseSeps, if_neg hs, hrec]

theorem mem_collapseSeps :
    ∀ l : List Char, ∀ c ∈ collapseSeps l, c = '-' ∨ (c ∈ l ∧ isSepCh c = false) := by
  intro l
  induction l with
  | nil => intro c hc; cases hc
  | cons a tail ih =>
    intro c hc
    cases tail with
    | nil =>
      by_cases hs : isSepCh a = true
      · rw [collapseSeps, if_pos hs] at hc
        left
        simpa using hc
      · rw [collapseSeps, if_neg hs] at hc
        right
        simp only [List.mem_singleton] at hc
        subst hc
        exact ⟨by simp, by simpa using hs⟩
    | cons d rest =>
      by_cases hs : isSepCh a = true
      · by_cases hd : isSepCh d = true
        · rw [collapseSeps, if_pos hs, if_pos hd] at hc
          rcases ih c hc with h | h
          · exact Or.inl h
          · exact Or.inr ⟨List.mem_cons_of_mem a h.1, h.2⟩
        · rw [collapseSeps, if_pos hs, if_neg hd, List.mem_cons] at hc
          rcases hc with h | h
          · exact Or.inl h
          · rcases ih c h with h2 | h2
            · exact Or.inl h2
            · exact Or.inr ⟨List.mem_cons_of_mem a h2.1, h2.2⟩
      · rw [collapseSeps, if_neg hs, List.mem_cons] at hc
        rcases hc with h | h
        · subst h
          exact Or.inr ⟨by simp, by simpa using hs⟩
        · rcases ih c h with h2 | h2
          · exact Or.inl h2
          · exact Or.inr ⟨List.mem_cons_of_mem a h2.1, h2.2⟩

theorem stripEnds_eq_self {l : List Char}
    (hh : ∀ c, l.head? = some c → isStripCh c = false)
    (hl : ∀ c, l.getLast? = some c → isStripCh c = false) :
    stripEnds l = l := by
  have h1 : l.dropWhile isStripCh = l := by
    cases l with
    | nil => rfl
    | cons a t =>
      rw [List.dropWhile_cons, if_neg (by rw [hh a rfl]; exact Bool.false_ne_true)]
  rw [stripEnds, h1]
  have h2 : l.reverse.dropWhile isStripCh = l.reverse := by
    cases hr : l.reverse with
    | nil => rfl
    | cons a t =>
      have ha : l.getLast? = some a := by
        rw [← List.head?_reverse, hr]
        rfl
      rw [List.dropWhile_cons, if_neg (by rw [hl a ha]; exact Bool.false_ne_true)]
  rw [h2, List.reverse_reverse]

theorem mem_stripEnds {l : List Char} {c : Char} (h : c ∈ stripEnds l) : c ∈ l := by
  rw [stripEnds, List.mem_reverse] at h
  have h1 := (List.dropWhile_sublist (l := (l.dropWhile isStripCh).reverse)
    (p := isStripCh)).subset h
  rw [List.mem_reverse] at h1
  exact (List.dropWhile_sublist (l := l) (p := isStripCh)).subset h1

theorem map_eq_self_of {f : Char → Char} :
    ∀ l : List Char, (∀ a ∈ l, f a = a) → l.map f = l := by
  intro l
  induction l with
  | nil => intro _; rfl
  | cons a t ih =>
    intro h
    rw [List.map_cons, h a (by simp), ih (fun x hx => h x (List.mem_cons_of_mem a hx))]

theorem slugify_output_chars (s : String) :
    ∀ c ∈ (slugify s).data, slugBodyChar c = true := by
  intro c hc
  have hc1 : c ∈ slugifyList s.data := hc
  rw [slugifyList] at hc1
  have hc2 := mem_stripEnds hc1
  rcases mem_collapseSeps _ c hc2 with h | ⟨hmem, hsep⟩
  · subst h
    decide
  · have hkeep : keepCh c = true := List.of_mem_filter hmem
    have hmap : c ∈ (s.data.filter (fun c => c.toNat < 128)).map lowerChar :=
      List.mem_of_mem_filter hmem
    rcases List.mem_map.mp hmap with ⟨c0, _, hc0⟩
    have hup : isAsciiUpper c = false := hc0 ▸ lowerChar_not_upper c0
    exact slugBody_of_keep hkeep hsep hup

theorem slugify_fix_of_slugShaped (s : String) (h : isSlugShaped s.data = true) :
    slugify s = s := by
  rw [isSlugShaped, Bool.and_eq_true, Bool.and_eq_true, Bool.and_eq_true] at h
  obtain ⟨⟨⟨hall, hna⟩, hh⟩, hl⟩ := h
  rw [List.all_eq_true] at hall
  have hh' : ∀ c, s.data.head? = some c → isStripCh c = false := by
    intro c hc
    rw [hc] at hh
    simpa using hh
  have hl' : ∀ c, s.data.getLast? = some c → isStripCh c = false := by
    intro c hc
    rw [hc] at hl
    simpa using hl
  have e1 : s.data.filter (fun c => c.toNat < 128) = s.data :=
    List.filter_eq_self.mpr (fun a ha => by simpa using slugBody_ascii (hall a ha))
  have e2 : s.data.map lowerChar = s.data :=
    map_eq_self_of _ (fun a ha => slugBody_lower_self (hall a ha))
  have e3 : s.data.filter keepCh = s.data :=
    List.filter_eq_self.mpr (fun a ha => slugBody_keep (hall a ha))
  have e4 : collapseSeps s.data = s.data :=
    collapseSeps_eq_self _ (fun a ha => hall a ha) hna
  have e5 : stripEnds s.data = s.data := stripEnds_eq_self hh' hl'
  cases s with
  | mk data =>
    show String.mk (slugifyList data) = String.mk data
    rw [slugifyList]
    simp only at e1 e2 e3 e4 e5
    rw [e1, e2, e3, e4, e5]

/-! ## Lemmas about the save pipeline -/

theorem resizedName_ne_empty (n : String) : resizedName n THUMBNAIL_SUFFIX ≠ "" := by
  intro h
  have hl := congrArg String.length h
  rw [resizedName, String.length_append, String.length_append] at hl
  have h8 : THUMBNAIL_SUFFIX.length = 8 := rfl
  rw [h8] at hl
  simp at hl

theorem saveReady_unpack {db : Db} {it : ItemObj} (h : saveReady db it = true) :
    it.image_decodable = true ∧ itemLenOk (derivedItem it) = true ∧
      itemUniqueOk db.items it.id (derivedItem it) = true ∧
      db.categories.any (fun c => c.id = it.category) = true := by
  rw [saveReady, Bool.and_eq_true, Bool.and_eq_true, Bool.and_eq_true] at h
  exact ⟨h.1.1.1, h.1.1.2, h.1.2, h.2⟩

theorem persistPhase_ok {db : Db} {it : ItemObj}
    (hdec : it.image_decodable = true)
    (hlen : itemLenOk (derivedItem it) = true)
    (huniq : itemUniqueOk db.items it.id (derivedItem it) = true) :
    ∃ db1 it2, persistPhase db it = Except.ok (db1, it2) ∧
      rowOfSaved it2 ∈ db1.items ∧
      db1.categories = db.categories ∧
      it2.item_name = it.item_name ∧
      it2.category = it.category ∧
      it2.views = it.views ∧
      it2.item_slug = slugify it.item_name ∧
      it2.image_thumbnail = resizedName it.image THUMBNAIL_SUFFIX := by
  have hresize : resize_image it.image it.image_decodable THUMBNAIL_SUFFIX =
      Except.ok (resizedName it.image THUMBNAIL_SUFFIX) := by
    rw [resize_image, if_pos hdec]
  have hpp : persistPhase db it = superSaveItem db (derivedItem it) := by
    rw [persistPhase, hresize]
    rfl
  rw [superSaveItem, if_neg (fun hc => hc hlen)] at hpp
  have hid : (derivedItem it).id = it.id := rfl
  rw [hid, if_neg (fun hc => hc huniq)] at hpp
  cases hi : it.id with
  | some i =>
    rw [hi] at hpp
    refine ⟨_, _, hpp, ?_, rfl, rfl, rfl, rfl, rfl, rfl⟩
    have : rowOfSaved (derivedItem it) = itemRowOf i (derivedItem it) := by
      rw [rowOfSaved, hid, hi]
      rfl
    rw [this]
    simp
  | none =>
    rw [hi] at hpp
    refine ⟨_, _, hpp, ?_, rfl, rfl, rfl, rfl, rfl, rfl⟩
    simp [rowOfSaved, itemRowOf]

theorem buildDestination_ok {db : Db} {it : ItemObj} (u : AppUser)
    (hcat : db.categories.any (fun c => c.id = it.category) = true)
    (hthumb : it.image_thumbnail ≠ "") :
    ∃ d, buildDestination db it u = Except.ok d ∧
      d.replacementTemplateData.recette_image_url_path =
        stripLastExt (mediaUrlBase ++ it.image_thumbnail) ++ THUMBNAIL_SUFFIX ++ ".jpg" := by
  have h1 : (db.categories.find? (fun c => c.id = it.category)).isSome = true := by
    rw [List.find?_isSome]
    rw [List.any_eq_true] at hcat
    exact hcat
  obtain ⟨cat, hfind⟩ := Option.isSome_iff_exists.mp h1
  have hfc : findCategory db it.category = Except.ok cat := by
    rw [findCategory, hfind]
  have hurl : fieldUrl it.image_thumbnail =
      Except.ok (mediaUrlBase ++ it.image_thumbnail) := by
    rw [fieldUrl, if_neg hthumb]
  refine ⟨{ toAddresses := [u.email],
            replacementTemplateData :=
              { base_url := "https://tari.kitchen",
                item_name := it.item_name,
                item_url_path := "/items/" ++ cat.category_slug ++ "/" ++ it.item_slug,
                recette_image_url_path :=
                  stripLastExt (mediaUrlBase ++ it.image_thumbnail) ++ THUMBNAIL_SUFFIX ++ ".jpg",
                username := pyTitle u.username,
                email := u.email } }, ?_, rfl⟩
  rw [buildDestination, hfc, hurl]

theorem mapExcept_ok {f : AppUser → Except String Destination} :
    ∀ l : List AppUser, (∀ u ∈ l, ∃ d, f u = Except.ok d) →
      ∃ ds, mapExcept f l = Except.ok ds := by
  intro l
  induction l with
  | nil => intro _; exact ⟨[], rfl⟩
  | cons a t ih =>
    intro h
    obtain ⟨d, hd⟩ := h a (by simp)
    obtain ⟨ds, hds⟩ := ih (fun u hu => h u (List.mem_cons_of_mem a hu))
    refine ⟨d :: ds, ?_⟩
    rw [mapExcept, hd, hds]

theorem notify_arn_unset {env : Env} {db : Db} {it : ItemObj} {ds : List Destination}
    (harn : env.sesIdentityArn = "")
    (h : mapExcept (buildDestination db it) env.users = Except.ok ds) :
    notify_registered_users env db it =
      (Except.ok (), [Ev.notifyCall, Ev.log LogLevel.info arnUnsetMsg]) := by
  simp [notify_registered_users, h, harn]

theorem notify_send_ok {env : Env} {db : Db} {it : ItemObj} {ds : List Destination}
    {r : String} (harn : env.sesIdentityArn ≠ "") (hs : env.sesSend = Except.ok r)
    (h : mapExcept (buildDestination db it) env.users = Except.ok ds) :
    notify_registered_users env db it =
      (Except.ok (),
        [Ev.notifyCall, Ev.sesSend ds, Ev.log LogLevel.info (sesOkMsg r)]) := by
  simp [notify_registered_users, h, harn, hs]

theorem notify_send_err {env : Env} {db : Db} {it : ItemObj} {ds : List Destination}
    {e : String} (harn : env.sesIdentityArn ≠ "") (hs : env.sesSend = Except.error e)
    (h : mapExcept (buildDestination db it) env.users = Except.ok ds) :
    notify_registered_users env db it =
      (Except.ok (),
        [Ev.notifyCall, Ev.sesSend ds, Ev.log LogLevel.error (sesFailMsg e)]) := by
  simp [notify_registered_users, h, harn, hs]

theorem notify_evs_head (env : Env) (db : Db) (it : ItemObj) :
    ∃ rest, (notify_registered_users env db it).2 = Ev.notifyCall :: rest := by
  rw [notify_registered_users]
  cases h : mapExcept (buildDestination db it) env.users with
  | error e => exact ⟨[], rfl⟩
  | ok ds =>
    by_cases harn : env.sesIdentityArn = ""
    · refine ⟨[Ev.log LogLevel.info arnUnsetMsg], ?_⟩
      simp [harn]
    · cases hs : env.sesSend with
      | ok r =>
        refine ⟨[Ev.sesSend ds, Ev.log LogLevel.info (sesOkMsg r)], ?_⟩
        simp [harn, hs]
      | error e =>
        refine ⟨[Ev.sesSend ds, Ev.log LogLevel.error (sesFailMsg e)], ?_⟩
        simp [harn, hs]

theorem itemSave_eq_of_persist {env : Env} {db db1 : Db} {it it2 : ItemObj}
    {evs : List Ev} (hpp : persistPhase db it = Except.ok (db1, it2))
    (hn : notify_registered_users env db1 it2 = (Except.ok (), evs)) :
    itemSave env db it = (Except.ok (db1, it2), Ev.persistWrite (rowOfSaved it2) :: evs) := by
  simp only [itemSave, hpp]
  rw [hn]

theorem itemSave_evs_of_persist_ok {env : Env} {db db1 : Db} {it it2 : ItemObj}
    (hpp : persistPhase db it = Except.ok (db1, it2)) :
    (itemSave env db it).2 =
      Ev.persistWrite (rowOfSaved it2) :: (notify_registered_users env db1 it2).2 := by
  simp only [itemSave, hpp]
  cases hn : notify_registered_users env db1 it2 with
  | mk r evs =>
    cases r with
    | ok u => rfl
    | error e => rfl

theorem itemSave_of_persist_err {env : Env} {db : Db} {it : ItemObj} {e : String}
    (hpp : persistPhase db it = Except.error e) :
    itemSave env db it = (Except.error e, []) := by
  simp only [itemSave, hpp]

theorem superSaveItem_ok_inv {db : Db} {x it2 : ItemObj} {db1 : Db}
    (h : superSaveItem db x = Except.ok (db1, it2)) :
    rowOfSaved it2 ∈ db1.items ∧ db1.categories = db.categories ∧
      it2.item_name = x.item_name ∧ it2.item_slug = x.item_slug ∧
      it2.image_thumbnail = x.image_thumbnail ∧ it2.category = x.category ∧
      it2.views = x.views := by
  rw [superSaveItem] at h
  split at h
  · cases h
  · split at h
    · cases h
    · split at h
      case _ i heq =>
        injection h with h2
        injection h2 with ha hb
        subst ha
        subst hb
        refine ⟨?_, rfl, rfl, rfl, rfl, rfl, rfl⟩
        rw [rowOfSaved, heq]
        simp
      case _ heq =>
        injection h with h2
        injection h2 with ha hb
        subst ha
        subst hb
        refine ⟨?_, rfl, rfl, rfl, rfl, rfl, rfl⟩
        simp [rowOfSaved, itemRowOf]

theorem persistPhase_ok_inv {db db1 : Db} {it it2 : ItemObj}
    (h : persistPhase db it = Except.ok (db1, it2)) :
    superSaveItem db (derivedItem it) = Except.ok (db1, it2) ∧
      it.image_decodable = true := by
  rw [persistPhase] at h
  cases hd : it.image_decodable with
  | true =>
    rw [resize_image, if_pos hd] at h
    exact ⟨h, rfl⟩
  | false =>
    rw [resize_image, if_neg (by rw [hd]; exact Bool.false_ne_true)] at h
    cases h

/-! ## Lemmas about the thumbnail URL computation -/

theorem takeWhile_append_all {p : Char → Bool} :
    ∀ (a t : List Char), (∀ c ∈ a, p c = true) → (a ++ t).takeWhile p = a ++ t.takeWhile p := by
  intro a
  induction a with
  | nil => intro t _; rfl
  | cons x xs ih =>
    intro t h
    rw [List.cons_append, List.takeWhile_cons, if_pos (h x (by simp)), List.cons_append,
      ih t (fun c hc => h c (List.mem_cons_of_mem x hc))]

theorem findIdx_append_none {p : Char → Bool} :
    ∀ (a t : List Char), (∀ c ∈ a, p c = false) → (a ++ t).findIdx p = a.length + t.findIdx p := by
  intro a
  induction a with
  | nil => intro t _; simp
  | cons x xs ih =>
    intro t h
    rw [List.cons_append, List.findIdx_cons, h x (by simp), cond_false,
      ih t (fun c hc => h c (List.mem_cons_of_mem x hc)), List.length_cons]
    omega

theorem stripLastExtList_split (m b e : List Char)
    (hm : m = [] ∨ ∃ ms, m = ms ++ ['/'])
    (hb : b ≠ []) (he : e ≠ [])
    (hbs : ∀ c ∈ b, c ≠ '/')
    (hes : ∀ c ∈ e, c ≠ '/' ∧ c ≠ '.') :
    stripLastExtList (m ++ b ++ '.' :: e) = m ++ b := by
  have hmrev : (m.reverse).takeWhile (fun c => c ≠ '/') = [] := by
    rcases hm with hm | ⟨ms, hm⟩
    · rw [hm]
      rfl
    · rw [hm, List.reverse_append]
      show List.takeWhile _ ('/' :: ms.reverse) = []
      rw [List.takeWhile_cons]
      simp
  have hrev : (m ++ b ++ '.' :: e).reverse.takeWhile (fun c => c ≠ '/') =
      e.reverse ++ '.' :: b.reverse := by
    rw [List.reverse_append, List.reverse_append, List.reverse_cons]
    rw [List.append_assoc]
    rw [takeWhile_append_all e.reverse _
      (fun c hc => by simpa using (hes c (List.mem_reverse.mp hc)).1)]
    have : (['.'] ++ (b.reverse ++ m.reverse)).takeWhile (fun c => c ≠ '/') =
        '.' :: (b.reverse ++ m.reverse).takeWhile (fun c => c ≠ '/') := by
      apply takeWhile_append_all
      intro c hc
      simp only [List.mem_singleton] at hc
      subst hc
      decide
    rw [List.singleton_append] at this ⊢
    rw [this]
    rw [takeWhile_append_all b.reverse _
      (fun c hc => by simpa using hbs c (List.mem_reverse.mp hc))]
    rw [hmrev, List.append_nil]
  have hk : (e.reverse ++ '.' :: b.reverse).findIdx (fun c => c = '.') = e.length := by
    rw [findIdx_append_none e.reverse _
      (fun c hc => by simpa using (hes c (List.mem_reverse.mp hc)).2)]
    rw [List.findIdx_cons]
    simp
  have hlen : (e.reverse ++ '.' :: b.reverse).length = e.length + 1 + b.length := by
    simp
    omega
  have hepos : 0 < e.length := List.length_pos.mpr he
  have hbpos : 0 < b.length := List.length_pos.mpr hb
  rw [stripLastExtList]
  simp only [hrev, hk]
  rw [if_pos ⟨hepos, by rw [hlen]; omega⟩]
  have hl : (m ++ b ++ '.' :: e).length = m.length + b.length + (e.length + 1) := by
    simp
    omega
  rw [hl]
  have harr : m ++ b ++ '.' :: e = (m ++ b) ++ '.' :: e := by
    rw [List.append_assoc]
  rw [harr]
  have : m.length + b.length + (e.length + 1) - (e.length + 1) = (m ++ b).length := by
    simp
  rw [this, List.take_left]

/-- String.mk unfolding for rewriting. -/
theorem mk_data (l : List Char) : (String.mk l).data = l := rfl

/-- Whole-pipeline success under `saveReady`, for any environment. -/
theorem itemSave_ok_of_ready (env : Env) (db : Db) (it : ItemObj)
    (hready : saveReady db it = true) :
    ∃ db1 it2, (itemSave env db it).1 = Except.ok (db1, it2) ∧
      rowOfSaved it2 ∈ db1.items ∧ db1.categories = db.categories ∧
      it2.category = it.category ∧
      it2.image_thumbnail = resizedName it.image THUMBNAIL_SUFFIX := by
  obtain ⟨hdec, hlen, huniq, hcat⟩ := saveReady_unpack hready
  obtain ⟨db1, it2, hpp, hmem, hcats, hname, hcatid, hviews, hslug, hthumb⟩ :=
    persistPhase_ok hdec hlen huniq
  have hcat2 : db1.categories.any (fun c => c.id = it2.category) = true := by
    rw [hcats, hcatid]
    exact hcat
  have hthumbne : it2.image_thumbnail ≠ "" := by
    rw [hthumb]
    exact resizedName_ne_empty _
  obtain ⟨ds, hds⟩ :=
    mapExcept_ok env.users (fun u _ => (buildDestination_ok u hcat2 hthumbne).imp
      (fun d hd => hd.1))
  refine ⟨db1, it2, ?_, hmem, hcats, hcatid, hthumb⟩
  by_cases harn : env.sesIdentityArn = ""
  · rw [itemSave_eq_of_persist hpp (notify_arn_unset harn hds)]
  · cases hs : env.sesSend with
    | ok r => rw [itemSave_eq_of_persist hpp (notify_send_ok harn hs hds)]
    | error e2 => rw [itemSave_eq_of_persist hpp (notify_send_err harn hs hds)]

/-! ## Claim theorems -/

/-- C1: for every Item and every exception raised by the external email
service bulk-send call during `Item.save`, the exception is caught
inside `notify_registered_users`, logged at error level with its
representation, and not re-raised: `Item.save` completes successfully,
the persisted row exists in the store, and the persisted result is the
same regardless of the notification outcome. -/
theorem save_completes_when_ses_raises (env : Env) (db : Db) (it : ItemObj) (e : String)
    (hready : saveReady db it = true) (harn : env.sesIdentityArn ≠ "")
    (hsend : env.sesSend = Except.error e) :
    ∃ db1 it2,
      (itemSave env db it).1 = Except.ok (db1, it2) ∧
      rowOfSaved it2 ∈ db1.items ∧
      Ev.log LogLevel.error (sesFailMsg e) ∈ (itemSave env db it).2 ∧
      ∀ send, (itemSave { env with sesSend := send } db it).1 = Except.ok (db1, it2) := by
  obtain ⟨hdec, hlen, huniq, hcat⟩ := saveReady_unpack hready
  obtain ⟨db1, it2, hpp, hmem, hcats, hname, hcatid, hviews, hslug, hthumb⟩ :=
    persistPhase_ok hdec hlen huniq
  have hcat2 : db1.categories.any (fun c => c.id = it2.category) = true := by
    rw [hcats, hcatid]
    exact hcat
  have hthumbne : it2.image_thumbnail ≠ "" := by
    rw [hthumb]
    exact resizedName_ne_empty _
  obtain ⟨ds, hds⟩ :=
    mapExcept_ok env.users (fun u _ => (buildDestination_ok u hcat2 hthumbne).imp
      (fun d hd => hd.1))
  have hsave := itemSave_eq_of_persist hpp (notify_send_err harn hsend hds)
  refine ⟨db1, it2, ?_, hmem, ?_, ?_⟩
  · rw [hsave]
  · rw [hsave]
    simp
  · intro send
    cases send with
    | ok r =>
      have hn : notify_registered_users { env with sesSend := Except.ok r } db1 it2 =
          (Except.ok (),
            [Ev.notifyCall, Ev.sesSend ds, Ev.log LogLevel.info (sesOkMsg r)]) :=
        notify_send_ok harn rfl hds
      rw [itemSave_eq_of_persist hpp hn]
    | error e2 =>
      have hn : notify_registered_users { env with sesSend := Except.error e2 } db1 it2 =
          (Except.ok (),
            [Ev.notifyCall, Ev.sesSend ds, Ev.log LogLevel.error (sesFailMsg e2)]) :=
        notify_send_err harn rfl hds
      rw [itemSave_eq_of_persist hpp hn]

/-- C1 witness: a concrete save under a raising bulk-send call. -/
theorem save_completes_when_ses_raises_witness :
    saveReady db0 it0 = true ∧ envErr.sesIdentityArn ≠ "" ∧
      envErr.sesSend = Except.error "Throttling" ∧
      (∃ db1 it2,
        (itemSave envErr db0 it0).1 = Except.ok (db1, it2) ∧
        rowOfSaved it2 ∈ db1.items ∧
        Ev.log LogLevel.error (sesFailMsg "Throttling") ∈ (itemSave envErr db0 it0).2 ∧
        ∀ send, (itemSave { envErr with sesSend := send } db0 it0).1 = Except.ok (db1, it2)) :=
  ⟨by decide, by decide, rfl,
    save_completes_when_ses_raises envErr db0 it0 "Throttling" (by decide) (by decide) rfl⟩

/-- C2: when `SES_IDENTITY_ARN` is absent, `Item.save` performs no
bulk-send call: the notifier logs at info level and returns, this is
not an error, and the save succeeds. -/
theorem save_skips_send_when_arn_unset (env : Env) (db : Db) (it : ItemObj)
    (hready : saveReady db it = true) (harn : env.sesIdentityArn = "") :
    ∃ db1 it2,
      (itemSave env db it).1 = Except.ok (db1, it2) ∧
      (itemSave env db it).2.filter isSesSend = [] ∧
      Ev.log LogLevel.info arnUnsetMsg ∈ (itemSave env db it).2 := by
  obtain ⟨hdec, hlen, huniq, hcat⟩ := saveReady_unpack hready
  obtain ⟨db1, it2, hpp, hmem, hcats, hname, hcatid, hviews, hslug, hthumb⟩ :=
    persistPhase_ok hdec hlen huniq
  have hcat2 : db1.categories.any (fun c => c.id = it2.category) = true := by
    rw [hcats, hcatid]
    exact hcat
  have hthumbne : it2.image_thumbnail ≠ "" := by
    rw [hthumb]
    exact resizedName_ne_empty _
  obtain ⟨ds, hds⟩ :=
    mapExcept_ok env.users (fun u _ => (buildDestination_ok u hcat2 hthumbne).imp
      (fun d hd => hd.1))
  have hsave := itemSave_eq_of_persist hpp (notify_arn_unset harn hds)
  refine ⟨db1, it2, ?_, ?_, ?_⟩
  · rw [hsave]
  · rw [hsave]
    simp [isSesSend]
  · rw [hsave]
    simp

/-- C2 witness: a concrete save with the identity configuration absent. -/
theorem save_skips_send_when_arn_unset_witness :
    saveReady db0 it0 = true ∧ envNoArn.sesIdentityArn = "" ∧
      (∃ db1 it2,
        (itemSave envNoArn db0 it0).1 = Except.ok (db1, it2) ∧
        (itemSave envNoArn db0 it0).2.filter isSesSend = [] ∧
        Ev.log LogLevel.info arnUnsetMsg ∈ (itemSave envNoArn db0 it0).2) :=
  ⟨by decide, rfl, save_skips_send_when_arn_unset envNoArn db0 it0 (by decide) rfl⟩

/-- C3: `Item.save` invokes the notifier only after the row has been
successfully persisted — whenever the notifier runs, the event trace
starts with the store write of a row that is present in the resulting
store — and when persistence raises, no notification attempt is made
(the save produces no events at all). -/
theorem notify_invoked_only_after_persist (env : Env) (db : Db) (it : ItemObj) :
    (Ev.notifyCall ∈ (itemSave env db it).2 →
      ∃ db1 it2 rest, persistPhase db it = Except.ok (db1, it2) ∧
        (itemSave env db it).2 = Ev.persistWrite (rowOfSaved it2) :: Ev.notifyCall :: rest ∧
        rowOfSaved it2 ∈ db1.items) ∧
    (∀ e, persistPhase db it = Except.error e → (itemSave env db it).2 = []) := by
  constructor
  · intro hmem
    cases hpp : persistPhase db it with
    | error e =>
      rw [itemSave_of_persist_err hpp] at hmem
      cases hmem
    | ok p =>
      obtain ⟨db1, it2⟩ := p
      obtain ⟨rest, hrest⟩ := notify_evs_head env db1 it2
      refine ⟨db1, it2, rest, rfl, ?_, ?_⟩
      · rw [itemSave_evs_of_persist_ok hpp, hrest]
      · exact (superSaveItem_ok_inv (persistPhase_ok_inv hpp).1).1
  · intro e hpp
    rw [itemSave_of_persist_err hpp]

/-- C3 witness: the first part at a save that persists, the second at a
save whose persistence raises. -/
theorem notify_invoked_only_after_persist_witness :
    Ev.notifyCall ∈ (itemSave env0 db0 it0).2 ∧
      (∃ db1 it2 rest, persistPhase db0 it0 = Except.ok (db1, it2) ∧
        (itemSave env0 db0 it0).2 =
          Ev.persistWrite (rowOfSaved it2) :: Ev.notifyCall :: rest ∧
        rowOfSaved it2 ∈ db1.items) ∧
      persistPhase db0 { it0 with image_decodable := false } =
        Except.error "cannot identify image file" ∧
      (itemSave env0 db0 { it0 with image_decodable := false }).2 = [] :=
  ⟨by decide,
    (notify_invoked_only_after_persist env0 db0 it0).1 (by decide),
    rfl,
    (notify_invoked_only_after_persist env0 db0 { it0 with image_decodable := false }).2
      "cannot identify image file" rfl⟩

theorem itemSave_fst_ok_inv {env : Env} {db : Db} {it : ItemObj} {db1 : Db} {it2 : ItemObj}
    (h : (itemSave env db it).1 = Except.ok (db1, it2)) :
    persistPhase db it = Except.ok (db1, it2) := by
  cases hpp : persistPhase db it with
  | error e =>
    rw [itemSave_of_persist_err hpp] at h
    cases h
  | ok p =>
    obtain ⟨d, i⟩ := p
    simp only [itemSave, hpp] at h
    rcases hnr : notify_registered_users env d i with ⟨r, evs⟩
    rw [hnr] at h
    cases r with
    | error e => simp at h
    | ok u =>
      simp at h
      obtain ⟨h1, h2⟩ := h
      subst h1
      subst h2
      rfl

theorem superSaveCategory_ok_inv {db : Db} {x c2 : CategoryObj} {db1 : Db}
    (h : superSaveCategory db x = Except.ok (db1, c2)) :
    (∃ i, categoryRowOf i c2 ∈ db1.categories) ∧
      c2.category_slug = x.category_slug ∧ c2.category_name = x.category_name := by
  rw [superSaveCategory] at h
  split at h
  · cases h
  · split at h
    · cases h
    · split at h
      case _ i heq =>
        injection h with h2
        injection h2 with ha hb
        subst ha
        subst hb
        refine ⟨⟨i, ?_⟩, rfl, rfl⟩
        simp
      case _ heq =>
        injection h with h2
        injection h2 with ha hb
        subst ha
        subst hb
        refine ⟨⟨freshCategoryId db.categories, ?_⟩, rfl, rfl⟩
        simp [categoryRowOf]

theorem categorySave_ok_inv {db : Db} {c c2 : CategoryObj} {db1 : Db}
    (h : categorySave db c = Except.ok (db1, c2)) :
    superSaveCategory db
        { c with image := resizedName c.image "", category_slug := slugify c.category_name } =
      Except.ok (db1, c2) := by
  rw [categorySave] at h
  by_cases hd : c.image_decodable = true
  · rw [resize_image, if_pos hd] at h
    exact h
  · rw [resize_image, if_neg hd] at h
    cases h

/-- C5: one `increment_views()` call on an Item with `views = 0` yields
`views = 1` and exactly one notifier invocation; the bulk-send service
is attempted exactly once when the outbound identity is configured and
zero times when it is not. -/
theorem increment_views_from_zero (env : Env) (db : Db) (it : ItemObj)
    (hv : it.views = 0) (hready : saveReady db it = true) :
    ∃ db1 it2,
      (increment_views env db it).1 = Except.ok (db1, it2) ∧ it2.views = 1 ∧
      ((increment_views env db it).2.filter isNotifyCall).length = 1 ∧
      (env.sesIdentityArn = "" →
        ((increment_views env db it).2.filter isSesSend).length = 0) ∧
      (env.sesIdentityArn ≠ "" →
        ((increment_views env db it).2.filter isSesSend).length = 1) := by
  have hready' : saveReady db { it with views := it.views + 1 } = true := hready
  obtain ⟨hdec, hlen, huniq, hcat⟩ := saveReady_unpack hready'
  obtain ⟨db1, it2, hpp, hmem, hcats, hname, hcatid, hviews, hslug, hthumb⟩ :=
    persistPhase_ok hdec hlen huniq
  have hv1 : it2.views = 1 := by
    have h2 : it2.views = it.views + 1 := hviews
    omega
  have hcat2 : db1.categories.any (fun c => c.id = it2.category) = true := by
    rw [hcats, hcatid]
    exact hcat
  have hthumbne : it2.image_thumbnail ≠ "" := by
    rw [hthumb]
    exact resizedName_ne_empty _
  obtain ⟨ds, hds⟩ :=
    mapExcept_ok env.users (fun u _ => (buildDestination_ok u hcat2 hthumbne).imp
      (fun d hd => hd.1))
  by_cases harn : env.sesIdentityArn = ""
  · have hsave := itemSave_eq_of_persist hpp (notify_arn_unset harn hds)
    refine ⟨db1, it2, ?_, hv1, ?_, fun _ => ?_, fun hne => absurd harn hne⟩
    · rw [increment_views, hsave]
    · rw [increment_views, hsave]
      simp [isNotifyCall, isSesSend]
    · rw [increment_views, hsave]
      simp [isNotifyCall, isSesSend]
  · cases hs : env.sesSend with
    | ok r =>
      have hsave := itemSave_eq_of_persist hpp (notify_send_ok harn hs hds)
      refine ⟨db1, it2, ?_, hv1, ?_, fun heq => absurd heq harn, fun _ => ?_⟩
      · rw [increment_views, hsave]
      · rw [increment_views, hsave]
        simp [isNotifyCall, isSesSend]
      · rw [increment_views, hsave]
        simp [isNotifyCall, isSesSend]
    | error e =>
      have hsave := itemSave_eq_of_persist hpp (notify_send_err harn hs hds)
      refine ⟨db1, it2, ?_, hv1, ?_, fun heq => absurd heq harn, fun _ => ?_⟩
      · rw [increment_views, hsave]
      · rw [increment_views, hsave]
        simp [isNotifyCall, isSesSend]
      · rw [increment_views, hsave]
        simp [isNotifyCall, isSesSend]

/-- C5 witness: a concrete increment from zero views. -/
theorem increment_views_from_zero_witness :
    it0.views = 0 ∧ saveReady db0 it0 = true ∧
      (∃ db1 it2,
        (increment_views env0 db0 it0).1 = Except.ok (db1, it2) ∧ it2.views = 1 ∧
        ((increment_views env0 db0 it0).2.filter isNotifyCall).length = 1 ∧
        (env0.sesIdentityArn = "" →
          ((increment_views env0 db0 it0).2.filter isSesSend).length = 0) ∧
        (env0.sesIdentityArn ≠ "" →
          ((increment_views env0 db0 it0).2.filter isSesSend).length = 1)) :=
  ⟨rfl, by decide, increment_views_from_zero env0 db0 it0 rfl (by decide)⟩

/-- C7: every successful save re-derives the slug (and, for Item, the
thumbnail) from the current name and image before persisting: values a
caller assigned to these fields beforehand do not influence the save,
and after a successful save the instance and a persisted row carry the
freshly derived values. -/
theorem save_rederives_slug_and_thumbnail :
    (∀ (db : Db) (c : CategoryObj) (s : String),
      categorySave db { c with category_slug := s } = categorySave db c) ∧
    (∀ (db : Db) (c : CategoryObj) (db1 : Db) (c2 : CategoryObj),
      categorySave db c = Except.ok (db1, c2) →
      c2.category_slug = slugify c.category_name ∧
      ∃ row ∈ db1.categories, row.category_slug = slugify c.category_name ∧
        row.category_name = c.category_name) ∧
    (∀ (env : Env) (db : Db) (it : ItemObj) (s t : String),
      itemSave env db { it with image_thumbnail := t, item_slug := s } =
        itemSave env db it) ∧
    (∀ (env : Env) (db : Db) (it : ItemObj) (db1 : Db) (it2 : ItemObj),
      (itemSave env db it).1 = Except.ok (db1, it2) →
      it2.item_slug = slugify it.item_name ∧
      it2.image_thumbnail = resizedName it.image THUMBNAIL_SUFFIX ∧
      ∃ row ∈ db1.items, row.item_slug = slugify it.item_name ∧
        row.image_thumbnail = resizedName it.image THUMBNAIL_SUFFIX) := by
  refine ⟨fun db c s => rfl, ?_, fun env db it s t => rfl, ?_⟩
  · intro db c db1 c2 h
    obtain ⟨⟨i, hrow⟩, hslug, hname⟩ := superSaveCategory_ok_inv (categorySave_ok_inv h)
    refine ⟨hslug, categoryRowOf i c2, hrow, ?_, ?_⟩
    · show c2.category_slug = slugify c.category_name
      exact hslug
    · show c2.category_name = c.category_name
      exact hname
  · intro env db it db1 it2 h
    obtain ⟨hmem, _, _, hslug, hthumb, _, _⟩ :=
      superSaveItem_ok_inv (persistPhase_ok_inv (itemSave_fst_ok_inv h)).1
    refine ⟨hslug, hthumb, rowOfSaved it2, hmem, ?_, ?_⟩
    · show it2.item_slug = _
      exact hslug
    · show it2.image_thumbnail = _
      exact hthumb

/-- C7 witness: concrete saves for both entities, with caller-assigned
slug and thumbnail values overwritten. -/
theorem save_rederives_slug_and_thumbnail_witness :
    (categorySave db0 { catTS with category_slug := "junk2" } = categorySave db0 catTS) ∧
    (catC.category_slug = slugify catTS.category_name ∧
      ∃ row ∈ dbC.categories, row.category_slug = slugify catTS.category_name ∧
        row.category_name = catTS.category_name) ∧
    (itemSave env0 db0 { it0 with image_thumbnail := "junk", item_slug := "junk" } =
      itemSave env0 db0 it0) ∧
    (itI.item_slug = slugify it0.item_name ∧
      itI.image_thumbnail = resizedName it0.image THUMBNAIL_SUFFIX ∧
      ∃ row ∈ dbI.items, row.item_slug = slugify it0.item_name ∧
        row.image_thumbnail = resizedName it0.image THUMBNAIL_SUFFIX) :=
  ⟨save_rederives_slug_and_thumbnail.1 db0 catTS "junk2",
    save_rederives_slug_and_thumbnail.2.1 db0 catTS dbC catC rfl,
    save_rederives_slug_and_thumbnail.2.2.1 env0 db0 it0 "junk" "junk",
    save_rederives_slug_and_thumbnail.2.2.2 env0 db0 it0 dbI itI rfl⟩

/-- C8: deleting a Category referenced by existing Items keeps every
item (same row count), removes the category row, and rewrites only the
category reference of the referencing items to the default category
id 1, leaving every other field unchanged. -/
theorem delete_category_sets_default (db : Db) (cid : Nat) (r : ItemRow)
    (hr : r ∈ db.items) :
    (deleteCategory db cid).items.length = db.items.length ∧
    (∀ c ∈ (deleteCategory db cid).categories, c.id ≠ cid) ∧
    (r.category = cid → { r with category := 1 } ∈ (deleteCategory db cid).items) ∧
    (r.category ≠ cid → r ∈ (deleteCategory db cid).items) := by
  refine ⟨by simp [deleteCategory], ?_, ?_, ?_⟩
  · intro c hc
    rw [deleteCategory] at hc
    have := (List.mem_filter.mp hc).2
    simpa using this
  · intro hcat
    rw [deleteCategory]
    refine List.mem_map.mpr ⟨r, hr, ?_⟩
    simp [hcat]
  · intro hcat
    rw [deleteCategory]
    refine List.mem_map.mpr ⟨r, hr, ?_⟩
    simp [hcat]

/-- C8 witness: deleting category 2, referenced by the only item. -/
theorem delete_category_sets_default_witness :
    rowD ∈ dbDel.items ∧ rowD.category = 2 ∧
      ((deleteCategory dbDel 2).items.length = dbDel.items.length ∧
        (∀ c ∈ (deleteCategory dbDel 2).categories, c.id ≠ 2) ∧
        (rowD.category = 2 → { rowD with category := 1 } ∈ (deleteCategory dbDel 2).items) ∧
        (rowD.category ≠ 2 → rowD ∈ (deleteCategory dbDel 2).items)) :=
  ⟨by decide, rfl, delete_category_sets_default dbDel 2 rowD (by decide)⟩

/-- C9: `notify_registered_users` enumerates the whole user directory
and builds every per-recipient payload before testing
`SES_IDENTITY_ARN`: with at least one registered user, an exception
raised while building a payload (for example an unset thumbnail URL, or
a missing category row) propagates even when notifications are
disabled; through `Item.save`, such an exception escapes the save after
the row was already written. -/
theorem payloads_built_before_arn_check :
    (∀ (env : Env) (db : Db) (it : ItemObj) (u : AppUser) (us : List AppUser),
      env.users = u :: us → it.image_thumbnail = "" → env.sesIdentityArn = "" →
      ∃ e, (notify_registered_users env db it).1 = Except.error e) ∧
    (∀ (env : Env) (db : Db) (it : ItemObj),
      env.sesIdentityArn = "" → env.users ≠ [] →
      it.image_decodable = true → itemLenOk (derivedItem it) = true →
      itemUniqueOk db.items it.id (derivedItem it) = true →
      (∀ c ∈ db.categories, c.id ≠ it.category) →
      ∃ e row rest, (itemSave env db it).1 = Except.error e ∧
        (itemSave env db it).2 = Ev.persistWrite row :: rest) := by
  constructor
  · intro env db it u us hu hthumb harn
    have hb : ∃ e, buildDestination db it u = Except.error e := by
      rw [buildDestination]
      cases hf : findCategory db it.category with
      | error e => exact ⟨e, rfl⟩
      | ok cat =>
        rw [fieldUrl, if_pos hthumb]
        exact ⟨_, rfl⟩
    obtain ⟨e, he⟩ := hb
    refine ⟨e, ?_⟩
    rw [notify_registered_users, hu, mapExcept, he]
  · intro env db it harn husers hdec hlen huniq hnocat
    obtain ⟨db1, it2, hpp, hmem, hcats, hname, hcatid, hviews, hslug, hthumb⟩ :=
      persistPhase_ok hdec hlen huniq
    have hfind : db1.categories.find? (fun c => c.id = it2.category) = none := by
      apply List.find?_eq_none.mpr
      intro c hc
      rw [hcats] at hc
      rw [hcatid]
      simpa using hnocat c hc
    have hfc : findCategory db1 it2.category =
        Except.error "Category matching query does not exist" := by
      rw [findCategory, hfind]
    obtain ⟨u, us, hu⟩ : ∃ u us, env.users = u :: us := by
      cases hus : env.users with
      | nil => exact absurd hus husers
      | cons a l => exact ⟨a, l, rfl⟩
    have hbd : buildDestination db1 it2 u =
        Except.error "Category matching query does not exist" := by
      rw [buildDestination, hfc]
    have hmape : mapExcept (buildDestination db1 it2) env.users =
        Except.error "Category matching query does not exist" := by
      rw [hu, mapExcept, hbd]
    have hn : notify_registered_users env db1 it2 =
        (Except.error "Category matching query does not exist", [Ev.notifyCall]) := by
      rw [notify_registered_users, hmape]
    refine ⟨"Category matching query does not exist", rowOfSaved it2, [Ev.notifyCall], ?_, ?_⟩
    · simp only [itemSave, hpp, hn]
    · simp only [itemSave, hpp, hn]

/-- C9 witness: both parts at concrete inputs — an unsaved item with an
unset thumbnail under a disabled notifier, and a save whose category
row is absent from the store. -/
theorem payloads_built_before_arn_check_witness :
    (envNoArn.users = user0 :: [] ∧ it0.image_thumbnail = "" ∧
      envNoArn.sesIdentityArn = "" ∧
      ∃ e, (notify_registered_users envNoArn db0 it0).1 = Except.error e) ∧
    (envNoArn.sesIdentityArn = "" ∧ envNoArn.users ≠ [] ∧
      (∀ c ∈ dbEmpty.categories, c.id ≠ it0.category) ∧
      ∃ e row rest, (itemSave envNoArn dbEmpty it0).1 = Except.error e ∧
        (itemSave envNoArn dbEmpty it0).2 = Ev.persistWrite row :: rest) :=
  ⟨⟨rfl, rfl, rfl,
      payloads_built_before_arn_check.1 envNoArn db0 it0 user0 [] rfl rfl rfl⟩,
    ⟨rfl, by decide, by decide,
      payloads_built_before_arn_check.2 envNoArn dbEmpty it0 rfl (by decide) rfl
        (by decide) (by decide) (by decide)⟩⟩

/-- C10: the name columns admit 200 characters while the slug columns
are capped at 50, so a valid 60-character name derives a 60-character
slug that violates the store length constraint: saving such an Item or
Category fails instead of succeeding. -/
theorem slug_overflow_fails_save :
    longName.length ≤ 200 ∧ (slugify longName).length = 60 ∧
      ¬ ((slugify longName).length ≤ 50) ∧
      (itemSave envNoArn dbEmpty itLong).1 =
        Except.error "value too long for type character varying" ∧
      categorySave dbEmpty catLong =
        Except.error "value too long for type character varying" :=
  ⟨by decide, by decide, by decide, rfl, rfl⟩

/-- C6: the slug derivation used at save time — `slugify`, a pure
function and hence deterministic — produces output made only of
lowercase letters, digits, underscores and hyphens; it is the identity
on every already-slug-shaped string; "Tomato Soup" slugifies to
"tomato-soup"; and re-deriving from the unchanged name (or from the
produced slug) yields the same slug again. -/
theorem slug_derivation_properties :
    (∀ s : String, ∀ c ∈ (slugify s).data, slugBodyChar c = true) ∧
    (∀ s : String, isSlugShaped s.data = true → slugify s = s) ∧
    slugify "Tomato Soup" = "tomato-soup" ∧
    slugify (slugify "Tomato Soup") = slugify "Tomato Soup" :=
  ⟨slugify_output_chars, slugify_fix_of_slugShaped, by decide, by decide⟩

/-- C6 witness: the charset part at one character of one slug, and the
fixpoint part at the already-slug-shaped string "tomato-soup". -/
theorem slug_derivation_properties_witness :
    ('t' ∈ (slugify "Tomato Soup").data ∧ slugBodyChar 't' = true) ∧
      isSlugShaped ("tomato-soup" : String).data = true ∧
      slugify "tomato-soup" = "tomato-soup" :=
  ⟨⟨by decide, slug_derivation_properties.1 "Tomato Soup" 't' (by decide)⟩,
    by decide, slug_derivation_properties.2.1 "tomato-soup" (by decide)⟩

/-- C4 counterexample: in the concrete save of `it0`, the destination
handed to the bulk-send call carries a thumbnail URL with the suffix
doubled, not the claimed original-URL-plus-one-suffix value. -/
theorem thumbnail_url_not_single_suffix :
    Ev.sesSend [dest0] ∈ (itemSave env0 db0 it0).2 ∧
      dest0.replacementTemplateData.recette_image_url_path =
        "/media/uploads/photo_resized_resized.jpg" ∧
      stripLastExt (mediaUrlBase ++ it0.image) ++ THUMBNAIL_SUFFIX ++ ".jpg" =
        "/media/uploads/photo_resized.jpg" ∧
      dest0.replacementTemplateData.recette_image_url_path ≠
        stripLastExt (mediaUrlBase ++ it0.image) ++ THUMBNAIL_SUFFIX ++ ".jpg" :=
  ⟨by decide, rfl, by decide, by decide⟩

/-- C4 (amended): the thumbnail URL placed in each recipient's template
parameters is computed from the thumbnail file's URL, whose name
already carries the suffix, so relative to the original image's URL the
extension is stripped and the thumbnail suffix is appended twice (not
once) before the fixed ".jpg" extension. -/
theorem thumbnail_url_doubles_suffix (env : Env) (db : Db) (it : ItemObj) (u : AppUser)
    (b e : List Char)
    (hsplit : it.image.data = b ++ '.' :: e)
    (hb : b ≠ []) (he : e ≠ [])
    (hbs : ∀ c ∈ b, c ≠ '/') (hes : ∀ c ∈ e, c ≠ '/' ∧ c ≠ '.')
    (hready : saveReady db it = true) :
    ∃ db1 it2 d,
      (itemSave env db it).1 = Except.ok (db1, it2) ∧
      buildDestination db1 it2 u = Except.ok d ∧
      d.replacementTemplateData.recette_image_url_path =
        stripLastExt (mediaUrlBase ++ it.image) ++
          THUMBNAIL_SUFFIX ++ THUMBNAIL_SUFFIX ++ ".jpg" := by
  obtain ⟨db1, it2, hok, hmem, hcats, hcatid, hthumb⟩ := itemSave_ok_of_ready env db it hready
  have hcat2 : db1.categories.any (fun c => c.id = it2.category) = true := by
    rw [hcats, hcatid]
    exact (saveReady_unpack hready).2.2.2
  have hthumbne : it2.image_thumbnail ≠ "" := by
    rw [hthumb]
    exact resizedName_ne_empty _
  obtain ⟨d, hd, hdr⟩ := buildDestination_ok u hcat2 hthumbne
  refine ⟨db1, it2, d, hok, hd, ?_⟩
  rw [hdr, hthumb]
  -- both URLs, reduced to character lists
  have hsl : stripLastExtList (b ++ '.' :: e) = b := by
    have h0 := stripLastExtList_split [] b e (Or.inl rfl) hb he hbs hes
    simpa using h0
  have h1 : stripLastExt it.image = String.mk b := by
    apply String.ext
    show stripLastExtList it.image.data = b
    rw [hsplit, hsl]
  have h2 : extOf it.image = String.mk ('.' :: e) := by
    apply String.ext
    show it.image.data.drop (stripLastExtList it.image.data).length = '.' :: e
    rw [hsplit, hsl]
    exact List.drop_left b ('.' :: e)
  have h3 : resizedName it.image THUMBNAIL_SUFFIX =
      String.mk b ++ "_resized" ++ String.mk ('.' :: e) := by
    rw [resizedName, h1, h2]
    rfl
  have hrs : ∀ c ∈ ("_resized" : String).data, c ≠ '/' := by decide
  have hbrs : ∀ c ∈ b ++ ("_resized" : String).data, c ≠ '/' := by
    intro c hc
    rcases List.mem_append.mp hc with h | h
    · exact hbs c h
    · exact hrs c h
  have hm : mediaUrlBase.data = [] ∨ ∃ ms, mediaUrlBase.data = ms ++ ['/'] :=
    Or.inr ⟨("/media/uploads" : String).data, rfl⟩
  have h5 : stripLastExt (mediaUrlBase ++ resizedName it.image THUMBNAIL_SUFFIX) =
      mediaUrlBase ++ String.mk b ++ "_resized" := by
    apply String.ext
    show stripLastExtList (mediaUrlBase ++ resizedName it.image THUMBNAIL_SUFFIX).data =
      (mediaUrlBase ++ String.mk b ++ "_resized").data
    rw [h3]
    simp only [String.data_append, mk_data]
    have h0 := stripLastExtList_split mediaUrlBase.data
      (b ++ ("_resized" : String).data) e hm
      (fun hn => hb (List.append_eq_nil.mp hn).1) he hbrs hes
    calc stripLastExtList (mediaUrlBase.data ++ (b ++ ("_resized" : String).data ++ '.' :: e))
        = stripLastExtList (mediaUrlBase.data ++ (b ++ ("_resized" : String).data) ++ '.' :: e) := by
          rw [← List.append_assoc]
      _ = mediaUrlBase.data ++ (b ++ ("_resized" : String).data) := h0
      _ = mediaUrlBase.data ++ b ++ ("_resized" : String).data := by rw [← List.append_assoc]
  have h6 : stripLastExt (mediaUrlBase ++ it.image) = mediaUrlBase ++ String.mk b := by
    apply String.ext
    show stripLastExtList (mediaUrlBase ++ it.image).data = (mediaUrlBase ++ String.mk b).data
    simp only [String.data_append, mk_data, hsplit]
    have h0 := stripLastExtList_split mediaUrlBase.data b e hm hb he hbs hes
    calc stripLastExtList (mediaUrlBase.data ++ (b ++ '.' :: e))
        = stripLastExtList (mediaUrlBase.data ++ b ++ '.' :: e) := by rw [← List.append_assoc]
      _ = mediaUrlBase.data ++ b := h0
  rw [h5, h6]
  apply String.ext
  simp [String.data_append, List.append_assoc, THUMBNAIL_SUFFIX]

/-- C4 witness: the amended equation at the concrete save of `it0`. -/
theorem thumbnail_url_doubles_suffix_witness :
    it0.image.data = ("photo" : String).data ++ '.' :: ("png" : String).data ∧
      saveReady db0 it0 = true ∧
      (∃ db1 it2 d, (itemSave env0 db0 it0).1 = Except.ok (db1, it2) ∧
        buildDestination db1 it2 user0 = Except.ok d ∧
        d.replacementTemplateData.recette_image_url_path =
          stripLastExt (mediaUrlBase ++ it0.image) ++
            THUMBNAIL_SUFFIX ++ THUMBNAIL_SUFFIX ++ ".jpg") :=
  ⟨rfl, by decide,
    thumbnail_url_doubles_suffix env0 db0 it0 user0 ("photo" : String).data
      ("png" : String).data rfl (by decide) (by decide) (by decide) (by decide) (by decide)⟩

end DjangoOnAws
